import Mathlib

/-!
Shallow embedding of the expense-tracker aggregation and record-store logic of
`src/components/ExpenseCalculator.tsx`, `src/components/ExpenseCharts.tsx` and the
persisted variant of the calculator.

Modelling conventions:
* JS `number` amounts are modelled as exact rationals (`ℚ`).
* An expense's `date` field is the ISO string `YYYY-MM-DD` in the source; it is
  modelled as a `Date` record of its year/month/day components.  For the dates the
  UI produces (four-digit years, months 1..12, days 1..31) `localeCompare` on the
  ISO strings orders them exactly as the numeric key `year*10000 + month*100 + day`.
* A JS object used as an accumulator (`acc[key] = (acc[key] || 0) + v`) and the
  find-or-push array reduce both behave as an association list whose first entry
  for a key is updated in place and where unseen keys are appended; `bump` below
  is that operation.
* `Array.prototype.sort` with a comparator over a total preorder is modelled by
  `List.insertionSort` (both are stable comparison sorts; all properties proved
  here depend only on the output being a sorted permutation of the input).
-/

namespace ExpenseWeaver

/-- Civil calendar date, the components of the ISO `YYYY-MM-DD` strings stored in
an expense's `date` field. -/
structure Date where
  year : Int
  month : Nat
  day : Nat
deriving DecidableEq, Repr

/-- The `Expense` interface of `ExpenseCalculator.tsx` / `ExpenseCharts.tsx`. -/
structure Expense where
  id : String
  amount : ℚ
  category : String
  description : String
  date : Date
deriving DecidableEq, Repr

/-- `expenses.reduce((sum, exp) => sum + exp.amount, 0)`. -/
def sumAmounts (l : List Expense) : ℚ :=
  l.foldl (fun s e => s + e.amount) 0

theorem foldl_add_map {α : Type u} {M : Type v} [AddMonoid M] (f : α → M) :
    ∀ (l : List α) (a : M), l.foldl (fun s x => s + f x) a = a + (l.map f).sum
  | [], a => by simp
  | x :: l, a => by
    rw [List.foldl_cons, foldl_add_map f l (a + f x), List.map_cons, List.sum_cons, add_assoc]

theorem sumAmounts_eq (l : List Expense) : sumAmounts l = (l.map Expense.amount).sum := by
  rw [sumAmounts, foldl_add_map Expense.amount l 0, zero_add]

/-- One step of the JS grouping idiom: update the (unique) entry for key `k` in
place if present, otherwise push a fresh entry at the end.  This is both
`acc[k] = (acc[k] || 0) + v` on an object accumulator and the
find-then-`existing.amount += v`-else-`push` reduce of `ExpenseCharts.tsx`. -/
def bump {κ : Type u} {ν : Type v} [DecidableEq κ] [Add ν] (k : κ) (v : ν) :
    List (κ × ν) → List (κ × ν)
  | [] => [(k, v)]
  | (k', v') :: rest => if k' = k then (k', v' + v) :: rest else (k', v') :: bump k v rest

/-- `l.reduce((acc, x) => bump-the-entry-for (key x) by (val x), [])`. -/
def groupBy {α : Type w} {κ : Type u} {ν : Type v} [DecidableEq κ] [Add ν]
    (key : α → κ) (val : α → ν) (l : List α) : List (κ × ν) :=
  l.foldl (fun acc x => bump (key x) (val x) acc) []

/-- Value of the first entry for key `k`, `0` when absent (JS `acc[k] || 0`). -/
def lookupVal {κ : Type u} {ν : Type v} [DecidableEq κ] [Zero ν] (k : κ) :
    List (κ × ν) → ν
  | [] => 0
  | (k', v') :: rest => if k' = k then v' else lookupVal k rest

section GroupByLemmas

variable {κ : Type u} {ν : Type v} [DecidableEq κ]

theorem lookupVal_bump_self [AddMonoid ν] (k : κ) (v : ν) :
    ∀ l : List (κ × ν), lookupVal k (bump k v l) = lookupVal k l + v
  | [] => by simp [bump, lookupVal]
  | (k', v') :: rest => by
    by_cases h : k' = k
    · simp [bump, lookupVal, h]
    · simp [bump, lookupVal, h, lookupVal_bump_self k v rest]

theorem lookupVal_bump_ne [AddMonoid ν] {j k : κ} (hjk : j ≠ k) (v : ν) :
    ∀ l : List (κ × ν), lookupVal j (bump k v l) = lookupVal j l
  | [] => by
    have hkj : ¬(k = j) := fun hh => hjk hh.symm
    simp [bump, lookupVal, hkj]
  | (k', v') :: rest => by
    by_cases h : k' = k
    · subst h
      have hkj : ¬(k' = j) := fun hh => hjk hh.symm
      simp [bump, lookupVal, hkj]
    · by_cases h' : k' = j
      · subst h'
        simp only [bump, if_neg h]
        simp [lookupVal]
      · simp [bump, lookupVal, h, h', lookupVal_bump_ne hjk v rest]

theorem keys_bump [Add ν] (k : κ) (v : ν) :
    ∀ l : List (κ × ν), (bump k v l).map Prod.fst =
      if k ∈ l.map Prod.fst then l.map Prod.fst else l.map Prod.fst ++ [k]
  | [] => by simp [bump]
  | (k', v') :: rest => by
    by_cases h : k' = k
    · subst h
      simp [bump]
    · have hkk' : ¬(k = k') := fun hh => h hh.symm
      by_cases hm : k ∈ rest.map Prod.fst
      · simp [bump, h, keys_bump k v rest, hm, hkk']
      · simp [bump, h, keys_bump k v rest, hm, hkk']

theorem mem_keys_bump [Add ν] (j k : κ) (v : ν) (l : List (κ × ν)) :
    j ∈ (bump k v l).map Prod.fst ↔ j = k ∨ j ∈ l.map Prod.fst := by
  rw [keys_bump]
  by_cases hm : k ∈ l.map Prod.fst
  · rw [if_pos hm]
    exact ⟨Or.inr, fun h => h.elim (fun h => h ▸ hm) id⟩
  · rw [if_neg hm]
    simp [List.mem_append, or_comm]

theorem nodup_keys_bump [Add ν] (k : κ) (v : ν) (l : List (κ × ν))
    (hnd : (l.map Prod.fst).Nodup) : ((bump k v l).map Prod.fst).Nodup := by
  rw [keys_bump]
  by_cases hm : k ∈ l.map Prod.fst
  · rwa [if_pos hm]
  · rw [if_neg hm]
    simp [List.nodup_append, hnd, hm]

theorem mem_val_eq_lookupVal [Zero ν] :
    ∀ l : List (κ × ν), ((l.map Prod.fst).Nodup) → ∀ p ∈ l, p.2 = lookupVal p.1 l
  | [], _, p, hp => absurd hp (List.not_mem_nil p)
  | (k', v') :: rest, hnd, p, hp => by
    have hnd' : (k' :: rest.map Prod.fst).Nodup := by simpa using hnd
    have hk' : k' ∉ rest.map Prod.fst := (List.nodup_cons.mp hnd').1
    have hrest : (rest.map Prod.fst).Nodup := (List.nodup_cons.mp hnd').2
    rcases List.mem_cons.mp hp with h1 | h1
    · subst h1
      simp [lookupVal]
    · have hne : ¬(k' = p.1) := by
        intro h
        exact hk' (List.mem_map.mpr ⟨p, h1, h.symm⟩)
      simp [lookupVal, hne, mem_val_eq_lookupVal rest hrest p h1]

theorem snd_sum_bump [AddCommMonoid ν] (k : κ) (v : ν) :
    ∀ l : List (κ × ν), ((bump k v l).map Prod.snd).sum = (l.map Prod.snd).sum + v
  | [] => by simp [bump]
  | (k', v') :: rest => by
    by_cases h : k' = k
    · simp only [bump, if_pos h, List.map_cons, List.sum_cons]
      rw [add_right_comm v' v, add_assoc]
    · simp [bump, h, snd_sum_bump k v rest, add_assoc]

theorem lookupVal_foldl_bump {α : Type w} [AddMonoid ν] (key : α → κ) (val : α → ν) (k : κ) :
    ∀ (l : List α) (acc : List (κ × ν)),
      lookupVal k (l.foldl (fun a x => bump (key x) (val x) a) acc) =
        lookupVal k acc + ((l.filter fun x => decide (key x = k)).map val).sum
  | [], acc => by simp
  | x :: l, acc => by
    rw [List.foldl_cons, lookupVal_foldl_bump key val k l (bump (key x) (val x) acc)]
    by_cases h : key x = k
    · subst h
      rw [lookupVal_bump_self, List.filter_cons_of_pos (by simp), List.map_cons,
        List.sum_cons, add_assoc]
    · rw [lookupVal_bump_ne (fun hh => h hh.symm), List.filter_cons_of_neg (by simpa using h)]

theorem mem_keys_foldl_bump {α : Type w} [AddMonoid ν] (key : α → κ) (val : α → ν) (k : κ) :
    ∀ (l : List α) (acc : List (κ × ν)),
      (k ∈ (l.foldl (fun a x => bump (key x) (val x) a) acc).map Prod.fst ↔
        k ∈ acc.map Prod.fst ∨ k ∈ l.map key)
  | [], acc => by simp
  | x :: l, acc => by
    rw [List.foldl_cons, mem_keys_foldl_bump key val k l (bump (key x) (val x) acc),
      mem_keys_bump]
    simp only [List.map_cons, List.mem_cons]
    tauto

theorem nodup_keys_foldl_bump {α : Type w} [AddMonoid ν] (key : α → κ) (val : α → ν) :
    ∀ (l : List α) (acc : List (κ × ν)), (acc.map Prod.fst).Nodup →
      ((l.foldl (fun a x => bump (key x) (val x) a) acc).map Prod.fst).Nodup
  | [], _acc, h => h
  | x :: l, acc, h =>
    nodup_keys_foldl_bump key val l (bump (key x) (val x) acc) (nodup_keys_bump _ _ _ h)

theorem snd_sum_foldl_bump {α : Type w} [AddCommMonoid ν] (key : α → κ) (val : α → ν) :
    ∀ (l : List α) (acc : List (κ × ν)),
      ((l.foldl (fun a x => bump (key x) (val x) a) acc).map Prod.snd).sum =
        (acc.map Prod.snd).sum + (l.map val).sum
  | [], acc => by simp
  | x :: l, acc => by
    rw [List.foldl_cons, snd_sum_foldl_bump key val l (bump (key x) (val x) acc),
      snd_sum_bump, List.map_cons, List.sum_cons]
    abel

theorem groupBy_nodup_keys {α : Type w} [AddMonoid ν] (key : α → κ) (val : α → ν)
    (l : List α) : ((groupBy key val l).map Prod.fst).Nodup :=
  nodup_keys_foldl_bump key val l [] (by simp)

theorem groupBy_mem_keys {α : Type w} [AddMonoid ν] (key : α → κ) (val : α → ν)
    (l : List α) (k : κ) : k ∈ (groupBy key val l).map Prod.fst ↔ k ∈ l.map key := by
  rw [groupBy, mem_keys_foldl_bump]
  simp

theorem groupBy_val {α : Type w} [AddMonoid ν] (key : α → κ) (val : α → ν) (l : List α) :
    ∀ p ∈ groupBy key val l, p.2 = ((l.filter fun x => decide (key x = p.1)).map val).sum := by
  intro p hp
  rw [mem_val_eq_lookupVal (groupBy key val l) (groupBy_nodup_keys key val l) p hp,
    groupBy, lookupVal_foldl_bump]
  simp [lookupVal]

theorem groupBy_snd_sum {α : Type w} [AddCommMonoid ν] (key : α → κ) (val : α → ν)
    (l : List α) : ((groupBy key val l).map Prod.snd).sum = (l.map val).sum := by
  rw [groupBy, snd_sum_foldl_bump]
  simp

end GroupByLemmas

/-!
## Aggregation logic of `ExpenseCalculator.tsx` (also lines 244-252 of the persisted variant)
-/

/-- `filterCategory === 'all' ? expenses : expenses.filter(exp => exp.category === filterCategory)`. -/
def filteredExpenses (filterCategory : String) (expenses : List Expense) : List Expense :=
  if filterCategory = "all" then expenses
  else expenses.filter fun exp => exp.category == filterCategory

/-- `filteredExpenses.reduce((sum, exp) => sum + exp.amount, 0)` — the "Total Expenses"
figure; note it is computed over the FILTERED list. -/
def totalAmount (filterCategory : String) (expenses : List Expense) : ℚ :=
  sumAmounts (filteredExpenses filterCategory expenses)

/-- `expenses.reduce((acc, exp) => { acc[exp.category] = (acc[exp.category] || 0) + exp.amount; return acc; }, {})`
— computed over ALL expenses, unfiltered.  A JS object with string keys enumerates in
insertion order, hence the association-list model. -/
def categoryTotals (expenses : List Expense) : List (String × ℚ) :=
  groupBy Expense.category Expense.amount expenses

/-- JS `a / b` yields a non-finite value (`NaN` or `Infinity`) when `b` is `0`; modelled
as `none` in that case. -/
def jsDiv (a b : ℚ) : Option ℚ :=
  if b = 0 then none else some (a / b)

/-- The Category Breakdown view's `((amount / totalAmount) * 100)` for one category row
(`ExpenseCalculator.tsx` lines 342-346): the divisor is the filter-dependent
`totalAmount` and there is no zero guard. -/
def breakdownShare (filterCategory : String) (expenses : List Expense) (amount : ℚ) :
    Option ℚ :=
  (jsDiv amount (totalAmount filterCategory expenses)).map fun q => q * 100

/-!
## Aggregation logic of `ExpenseCharts.tsx`
-/

/-- The find-or-push reduce building `categoryData` before percentages are filled in
(lines 48-60): entries `(category, amount)`. -/
def categoryAmounts (expenses : List Expense) : List (String × ℚ) :=
  groupBy Expense.category Expense.amount expenses

/-- `categoryData.reduce((sum, item) => sum + item.amount, 0)` (line 62). -/
def chartsTotalAmount (expenses : List Expense) : ℚ :=
  (categoryAmounts expenses).foldl (fun s p => s + p.2) 0

/-- `categoryData` after the `forEach` fills in
`item.percentage = totalAmount > 0 ? (item.amount / totalAmount) * 100 : 0`
(lines 63-65): entries `(category, amount, percentage)`. -/
def categoryData (expenses : List Expense) : List (String × ℚ × ℚ) :=
  let total := chartsTotalAmount expenses
  (categoryAmounts expenses).map fun p =>
    (p.1, p.2, if 0 < total then p.2 / total * 100 else 0)

/-- Days since 1970-01-01 of a civil date (Gregorian, proleptic), the day count
underlying `new Date("YYYY-MM-DD").getTime()`.  `Int.tdiv` (truncating division)
mirrors the C-style arithmetic of the standard civil-from-days algorithm; all
intermediate numerators it is applied to are the usual shifted non-negative ones. -/
def daysFromCivil (d : Date) : Int :=
  let y : Int := if d.month ≤ 2 then d.year - 1 else d.year
  let era : Int := Int.tdiv (if 0 ≤ y then y else y - 399) 400
  let yoe : Int := y - era * 400
  let mp : Nat := (d.month + 9) % 12
  let doy : Int := Int.ofNat ((153 * mp + 2) / 5 + d.day) - 1
  let doe : Int := yoe * 365 + Int.tdiv yoe 4 - Int.tdiv yoe 100 + doy
  era * 146097 + doe - 719468

/-- Numeric reading of the ISO string `YYYY-MM-DD`: for the dates the UI produces
(four-digit year, zero-padded month/day) `localeCompare` on the strings orders them
exactly as this integer. -/
def dateKey (d : Date) : Int :=
  d.year * 10000 + (d.month : Int) * 100 + d.day

/-- The last-30-days filter of `dailyData` (lines 93-98):
`expenseDate >= thirtyDaysAgo` where `thirtyDaysAgo` is "now" minus 30 days.
"now" is modelled at midnight UTC of a civil date.  Note the source has no
upper bound on the expense date. -/
def inWindow (now : Date) (e : Expense) : Prop :=
  daysFromCivil now - 30 ≤ daysFromCivil e.date

instance (now : Date) (e : Expense) : Decidable (inWindow now e) :=
  inferInstanceAs (Decidable (_ ≤ _))

/-- Comparator relation of `dailyData.sort((a, b) => a.date.localeCompare(b.date))`. -/
def dailyLe (a b : Date × ℚ) : Prop :=
  dateKey a.1 ≤ dateKey b.1

instance : DecidableRel dailyLe := fun _a _b => inferInstanceAs (Decidable (_ ≤ _))

instance : IsTotal (Date × ℚ) dailyLe := ⟨fun a b => le_total (dateKey a.1) (dateKey b.1)⟩

instance : IsTrans (Date × ℚ) dailyLe := ⟨fun _ _ _ h1 h2 => le_trans h1 h2⟩

/-- `dailyData` (lines 92-115): filter to the rolling window, group by the exact
date (the `date` string is the grouping key; `displayDate` is presentation only and
dropped), sum amounts, then sort by the date key. -/
def dailyData (now : Date) (expenses : List Expense) : List (Date × ℚ) :=
  List.insertionSort dailyLe
    (groupBy Expense.date Expense.amount
      (expenses.filter fun e => decide (inWindow now e)))

/-- The grouping key of `monthlyData`: the components of
`` `${date.getFullYear()}-${String(date.getMonth() + 1).padStart(2, '0')}` ``.
Two dates produce the same key string exactly when they share year and month. -/
def monthKeyPair (d : Date) : Int × Nat :=
  (d.year, d.month)

/-- Comparator relation of `monthlyData.sort((a, b) => a.monthKey.localeCompare(b.monthKey))`:
for four-digit years the string order of `YYYY-MM` keys is the order of
`year * 100 + month`. -/
def monthLe (a b : (Int × Nat) × (ℚ × ℕ)) : Prop :=
  a.1.1 * 100 + a.1.2 ≤ b.1.1 * 100 + b.1.2

instance : DecidableRel monthLe := fun _a _b => inferInstanceAs (Decidable (_ ≤ _))

instance : IsTotal ((Int × Nat) × (ℚ × ℕ)) monthLe :=
  ⟨fun a b => le_total (a.1.1 * 100 + a.1.2) (b.1.1 * 100 + b.1.2)⟩

instance : IsTrans ((Int × Nat) × (ℚ × ℕ)) monthLe := ⟨fun _ _ _ h1 h2 => le_trans h1 h2⟩

/-- `monthlyData` (lines 68-89): group by year-month key, accumulating
`amount += expense.amount; count += 1` (the pair value), then sort ascending by the
key (`monthName` is presentation only and dropped). -/
def monthlyData (expenses : List Expense) : List ((Int × Nat) × (ℚ × ℕ)) :=
  List.insertionSort monthLe
    (groupBy (fun e => monthKeyPair e.date) (fun e => (e.amount, (1 : ℕ))) expenses)

/-- `new Date(exp.date).getMonth()`: JS months are 0-based, so this is
`month - 1` (over `ℤ`); the year is not part of the value.  Local-time-zone
effects on `getMonth` are abstracted away (UTC assumed). -/
def jsGetMonth (d : Date) : Int :=
  (d.month : Int) - 1

/-- The "This Month" card (`ExpenseCalculator.tsx` lines 163-168):
`expenses.filter(exp => new Date(exp.date).getMonth() === new Date().getMonth()).reduce((sum, exp) => sum + exp.amount, 0)`. -/
def thisMonthTotal (today : Date) (expenses : List Expense) : ℚ :=
  sumAmounts (expenses.filter fun e => decide (jsGetMonth e.date = jsGetMonth today))

/-- Modelled from the spec: "sum of amounts for records whose date's month component
equals the current month" — the reference description C4 compares the code against. -/
def specCurrentMonthTotal (today : Date) (expenses : List Expense) : ℚ :=
  sumAmounts (expenses.filter fun e => decide (e.date.month = today.month))

/-!
## Record-store operations of `ExpenseCalculator.tsx` (local variant) and the
persisted variant's `handleSubmit`
-/

/-- The controlled form state (strings as held by the inputs; the date input is
modelled by its civil-date value). -/
structure FormState where
  amount : String
  category : String
  description : String
  date : Date
deriving DecidableEq, Repr

/-- The component state that `handleSubmit` / `handleDelete` read and write. -/
structure CalcState where
  expenses : List Expense
  form : FormState
  editingId : Option String
deriving DecidableEq, Repr

inductive ToastKind where
  | validationError
  | success
  | failure
deriving DecidableEq, Repr

structure SubmitOutcome where
  state : CalcState
  toast : ToastKind
deriving DecidableEq, Repr

/-- Value of a digit string, most significant first. -/
def digitsVal (ds : List Char) : ℕ :=
  ds.foldl (fun n c => 10 * n + (c.toNat - 48)) 0

/-- JS `parseFloat` restricted to the plain decimal strings a `type="number"` input
produces: optional sign, integer digits, optional fraction.  (Exponents and the
`NaN` result on non-numeric input are out of scope; every use below is guarded by
the non-empty-field validation.) -/
def parseFloat (s : String) : ℚ :=
  let cs := s.toList
  let signAndRest : ℚ × List Char :=
    match cs with
    | '-' :: rest => (-1, rest)
    | '+' :: rest => (1, rest)
    | _ => (1, cs)
  let intPart := signAndRest.2.takeWhile Char.isDigit
  let after := signAndRest.2.dropWhile Char.isDigit
  let fracPart :=
    match after with
    | '.' :: r => r.takeWhile Char.isDigit
    | _ => []
  signAndRest.1 * ((digitsVal intPart : ℚ) +
    (digitsVal fracPart : ℚ) / (10 : ℚ) ^ fracPart.length)

/-- The blank form `handleSubmit` resets to (today's date prefilled). -/
def emptyForm (today : Date) : FormState :=
  { amount := "", category := "", description := "", date := today }

/-- The expense object built in `handleSubmit` (lines 55-61):
`id: editingId || Date.now().toString(), amount: parseFloat(form.amount), ...`.
`now` is `Date.now()` in milliseconds. -/
def mkExpense (editingId : Option String) (now : Nat) (f : FormState) : Expense :=
  { id := editingId.getD (toString now)
    amount := parseFloat f.amount
    category := f.category
    description := f.description
    date := f.date }

/-- `handleSubmit` of the local (non-persisted) variant (`ExpenseCalculator.tsx`
lines 43-84): validation guard, then edit-in-place by `editingId` or append. -/
def handleSubmit (now : Nat) (today : Date) (s : CalcState) : SubmitOutcome :=
  if s.form.amount = "" ∨ s.form.category = "" ∨ s.form.description = "" then
    { state := s, toast := ToastKind.validationError }
  else
    let expense := mkExpense s.editingId now s.form
    match s.editingId with
    | some eid =>
      { state :=
          { expenses := s.expenses.map fun exp => if exp.id = eid then expense else exp
            form := emptyForm today
            editingId := none }
        toast := ToastKind.success }
    | none =>
      { state :=
          { expenses := s.expenses ++ [expense]
            form := emptyForm today
            editingId := none }
        toast := ToastKind.success }

/-- `handleDelete` (lines 96-102): `expenses.filter(exp => exp.id !== id)`. -/
def handleDelete (id : String) (expenses : List Expense) : List Expense :=
  expenses.filter fun exp => exp.id != id

/-- Results of the remote collaborator calls awaited inside the persisted variant's
`handleSubmit`: the authenticated user (if any), the error of the
update/insert mutation (if it fails), and the record set `loadExpenses` then
fetches. -/
structure RemoteEnv where
  user : Option String
  mutationError : Option String
  reloaded : List Expense

structure PersistOutcome where
  state : CalcState
  toast : Option ToastKind
  remoteAttempted : Bool

/-- `handleSubmit` of the persisted variant (part_000 lines 111-200): the same
validation guard short-circuits before any `await`; otherwise update-by-id or
insert, surface a mutation error leaving state untouched, and on success reload
the expense list and reset the form. -/
def handleSubmitPersisted (env : RemoteEnv) (today : Date) (s : CalcState) :
    PersistOutcome :=
  if s.form.amount = "" ∨ s.form.category = "" ∨ s.form.description = "" then
    { state := s, toast := some ToastKind.validationError, remoteAttempted := false }
  else
    match s.editingId with
    | some _ =>
      match env.mutationError with
      | some _ => { state := s, toast := some ToastKind.failure, remoteAttempted := true }
      | none =>
        { state := { expenses := env.reloaded, form := emptyForm today, editingId := none }
          toast := some ToastKind.success
          remoteAttempted := true }
    | none =>
      match env.user with
      | none => { state := s, toast := none, remoteAttempted := true }
      | some _ =>
        match env.mutationError with
        | some _ => { state := s, toast := some ToastKind.failure, remoteAttempted := true }
        | none =>
          { state := { expenses := env.reloaded, form := emptyForm today, editingId := none }
            toast := some ToastKind.success
            remoteAttempted := true }

/-- Pairwise-distinct identifiers in the record set ("Invariant: identifiers are
unique within the active record set"). -/
def idsNodup (l : List Expense) : Prop :=
  (l.map Expense.id).Nodup

instance (l : List Expense) : Decidable (idsNodup l) :=
  inferInstanceAs (Decidable (List.Nodup _))

/-!
## Claim C1
-/

/-- Two records in different categories; the UI filter set to one of them. -/
def exC1 : List Expense :=
  [⟨"1", 100, "Food & Dining", "a", ⟨2024, 1, 5⟩⟩,
   ⟨"2", 50, "Transportation", "b", ⟨2024, 1, 6⟩⟩]

/-- C1 counterexample: with the category filter set to "Food & Dining", the grand
total displayed alongside the category totals is computed over the filtered list
(100), while the category totals are computed over all records and sum to 150 —
so they are NOT computed over the same record set for every filter setting. -/
theorem C1_counterexample :
    ((categoryTotals exC1).map Prod.snd).sum = 150 ∧
    totalAmount "Food & Dining" exC1 = 100 ∧
    ((categoryTotals exC1).map Prod.snd).sum ≠ totalAmount "Food & Dining" exC1 := by
  refine ⟨?_, ?_, ?_⟩ <;>
    norm_num +decide [exC1, categoryTotals, groupBy, bump, totalAmount, filteredExpenses,
      sumAmounts]

/-- C1 (amended): for every non-empty record list, the sum of the per-category
totals equals the grand total over ALL records (the value `totalAmount` displays
when the filter is "all", and the grand total `ExpenseCharts` computes); the
displayed total agrees with the category totals' record set only in that case,
since it is computed over the filtered list. -/
theorem C1_category_totals_sum_to_grand_total (expenses : List Expense)
    (_hne : expenses ≠ []) :
    ((categoryTotals expenses).map Prod.snd).sum = totalAmount "all" expenses ∧
    chartsTotalAmount expenses = totalAmount "all" expenses := by
  have hall : totalAmount "all" expenses = (expenses.map Expense.amount).sum := by
    rw [totalAmount, filteredExpenses, if_pos rfl, sumAmounts_eq]
  constructor
  · rw [hall, categoryTotals, groupBy_snd_sum]
  · rw [hall, chartsTotalAmount, foldl_add_map Prod.snd, zero_add, categoryAmounts,
      groupBy_snd_sum]

/-- Witness for C1 at the concrete record list `exC1`. -/
theorem C1_witness :
    exC1 ≠ [] ∧
    ((categoryTotals exC1).map Prod.snd).sum = totalAmount "all" exC1 ∧
    chartsTotalAmount exC1 = totalAmount "all" exC1 :=
  ⟨by simp [exC1], C1_category_totals_sum_to_grand_total exC1 (by simp [exC1])⟩

/-!
## Claim C2
-/

/-- A single record with amount 0: the grand total is 0 while the category-totals
object is non-empty, so the Category Breakdown card is rendered. -/
def exC2 : List Expense :=
  [⟨"1", 0, "Food & Dining", "a", ⟨2024, 1, 5⟩⟩]

/-- C2: at a record set whose grand total is 0 the Category Breakdown is rendered
(its category-totals object is non-empty) yet its percentage is `(0 / 0) * 100`,
an undefined JS value (`NaN`) rather than the 0 the claim requires; by contrast
the chart-side percentage of `ExpenseCharts` guards the division and is 0 there. -/
theorem C2_breakdown_share_undefined_at_zero_total :
    categoryTotals exC2 = [("Food & Dining", 0)] ∧
    totalAmount "all" exC2 = 0 ∧
    breakdownShare "all" exC2 (lookupVal "Food & Dining" (categoryTotals exC2)) = none ∧
    categoryData exC2 = [("Food & Dining", 0, 0)] := by
  refine ⟨?_, ?_, ?_, ?_⟩ <;>
    norm_num +decide [exC2, categoryTotals, categoryData, categoryAmounts, chartsTotalAmount,
      groupBy, bump, totalAmount, filteredExpenses, sumAmounts, breakdownShare, jsDiv,
      lookupVal]

/-!
## Claim C4
-/

/-- C4: the "This Month" card's total equals the sum of amounts of the records
whose date's month component equals the current month, with the year playing no
role: it coincides with the spec-worded month-only sum, is unchanged when the
current date's year changes, and a record from the same-named month of a
different year (June 1999 against a June 2024 "today") is included. -/
theorem C4_this_month_total_ignores_year :
    (∀ (today : Date) (expenses : List Expense),
      thisMonthTotal today expenses = specCurrentMonthTotal today expenses) ∧
    (∀ (today : Date) (expenses : List Expense) (y : Int),
      thisMonthTotal { today with year := y } expenses = thisMonthTotal today expenses) ∧
    thisMonthTotal ⟨2024, 6, 15⟩ [⟨"1", 7, "Travel", "t", ⟨1999, 6, 1⟩⟩] = 7 := by
  refine ⟨?_, ?_, by norm_num +decide [thisMonthTotal, sumAmounts, jsGetMonth]⟩
  · intro today expenses
    rw [thisMonthTotal, specCurrentMonthTotal]
    congr 1
    apply List.filter_congr
    intro e _
    apply decide_eq_decide.mpr
    simp [jsGetMonth, sub_left_inj, Nat.cast_inj]
  · intro today expenses y
    rfl

/-!
## Claim C3
-/

def exNow : Date := ⟨2024, 6, 15⟩

def eFut : Expense := ⟨"9", 5, "Travel", "x", ⟨2024, 7, 1⟩⟩

/-- C3 counterexample: with "now" = 2024-06-15, a record dated 2024-07-01 — after
"now" — appears in the daily totals (`expenseDate >= thirtyDaysAgo` has no upper
bound), so the output does not contain only records dated within the 30 days
prior to now. -/
theorem C3_counterexample :
    dailyData exNow [eFut] = [(⟨2024, 7, 1⟩, 5)] ∧
    daysFromCivil exNow < daysFromCivil (⟨2024, 7, 1⟩ : Date) := by
  constructor
  · norm_num +decide [dailyData, groupBy, bump, inWindow, daysFromCivil, exNow, eFut,
      List.insertionSort, List.orderedInsert]
  · decide

/-- C3 (amended): for every "now" and record list, the daily totals contain
exactly one group per date of a record dated on or after `now − 30 days` — with
no upper bound, so records dated after "now" are also included — each group's
amount is the sum of the in-window records bearing that exact date, the group
dates are pairwise distinct, and the groups are sorted ascending by date. -/
theorem C3_daily_data_window_grouping_sorted (now : Date) (expenses : List Expense) :
    (∀ d : Date, d ∈ (dailyData now expenses).map Prod.fst ↔
      ∃ e ∈ expenses, e.date = d ∧ inWindow now e) ∧
    (∀ p ∈ dailyData now expenses,
      p.2 = sumAmounts ((expenses.filter fun e => decide (inWindow now e)).filter
        fun e => decide (e.date = p.1))) ∧
    ((dailyData now expenses).map Prod.fst).Nodup ∧
    (dailyData now expenses).Sorted dailyLe := by
  have hperm : List.Perm (dailyData now expenses)
      (groupBy Expense.date Expense.amount
        (expenses.filter fun e => decide (inWindow now e))) :=
    List.perm_insertionSort dailyLe _
  refine ⟨?_, ?_, ?_, ?_⟩
  · intro d
    rw [(hperm.map Prod.fst).mem_iff, groupBy_mem_keys]
    constructor
    · intro hd
      rcases List.mem_map.mp hd with ⟨e, he, rfl⟩
      rcases List.mem_filter.mp he with ⟨he1, he2⟩
      exact ⟨e, he1, rfl, of_decide_eq_true he2⟩
    · rintro ⟨e, he, rfl, hw⟩
      exact List.mem_map.mpr ⟨e, List.mem_filter.mpr ⟨he, decide_eq_true hw⟩, rfl⟩
  · intro p hp
    rw [groupBy_val Expense.date Expense.amount _ p (hperm.subset hp), sumAmounts_eq]
  · exact ((hperm.map Prod.fst).nodup_iff).mpr (groupBy_nodup_keys _ _ _)
  · exact List.sorted_insertionSort dailyLe _

/-!
## Claim C5
-/

/-- Pair sums of `(amount, 1)` are (amount sum, record count). -/
theorem pair_sum_amount_count :
    ∀ l : List Expense, (l.map fun e => (e.amount, (1 : ℕ))).sum = (sumAmounts l, l.length)
  | [] => by simp [sumAmounts]
  | e :: l => by
    rw [List.map_cons, List.sum_cons, pair_sum_amount_count l, Prod.mk_add_mk,
      sumAmounts_eq, sumAmounts_eq, List.map_cons, List.sum_cons, List.length_cons]
    simp [Nat.add_comm]

/-- The spec's example records: 100 Food on 2024-01-05, 50 Food on 2024-02-10,
30 Transport on 2024-01-20. -/
def exC5 : List Expense :=
  [⟨"1", 100, "Food", "fa", ⟨2024, 1, 5⟩⟩,
   ⟨"2", 50, "Food", "fb", ⟨2024, 2, 10⟩⟩,
   ⟨"3", 30, "Transport", "fc", ⟨2024, 1, 20⟩⟩]

/-- C5: the monthly totals group records by the calendar year+month of their
date, with the amount summed and the records counted per group, the groups are
pairwise distinct and emitted sorted ascending by the year-month key, and on the
spec's example records the output is [2024-01: (130, 2 records),
2024-02: (50, 1 record)] in that order. -/
theorem C5_monthly_data_grouping_sorted :
    (∀ (expenses : List Expense) (y : Int) (m : Nat),
      ((y, m) ∈ (monthlyData expenses).map Prod.fst ↔
        ∃ e ∈ expenses, e.date.year = y ∧ e.date.month = m)) ∧
    (∀ (expenses : List Expense), ∀ p ∈ monthlyData expenses,
      p.2 = (sumAmounts (expenses.filter fun e => decide (monthKeyPair e.date = p.1)),
        (expenses.filter fun e => decide (monthKeyPair e.date = p.1)).length)) ∧
    (∀ expenses : List Expense, ((monthlyData expenses).map Prod.fst).Nodup ∧
      (monthlyData expenses).Sorted monthLe) ∧
    monthlyData exC5 = [((2024, 1), (130, 2)), ((2024, 2), (50, 1))] := by
  have hperm : ∀ expenses : List Expense, List.Perm (monthlyData expenses)
      (groupBy (fun e => monthKeyPair e.date) (fun e => (e.amount, (1 : ℕ))) expenses) :=
    fun expenses => List.perm_insertionSort monthLe _
  refine ⟨?_, ?_, ?_, ?_⟩
  · intro expenses y m
    rw [((hperm expenses).map Prod.fst).mem_iff, groupBy_mem_keys]
    constructor
    · intro hd
      rcases List.mem_map.mp hd with ⟨e, he, hk⟩
      rcases Prod.mk.injEq .. ▸ hk with ⟨hy, hm⟩
      exact ⟨e, he, hy, hm⟩
    · rintro ⟨e, he, hy, hm⟩
      exact List.mem_map.mpr ⟨e, he, by rw [monthKeyPair, hy, hm]⟩
  · intro expenses p hp
    rw [groupBy_val (fun e => monthKeyPair e.date) (fun e => (e.amount, (1 : ℕ)))
      expenses p ((hperm expenses).subset hp), pair_sum_amount_count]
  · intro expenses
    exact ⟨(((hperm expenses).map Prod.fst).nodup_iff).mpr (groupBy_nodup_keys _ _ _),
      List.sorted_insertionSort monthLe _⟩
  · norm_num +decide [monthlyData, groupBy, bump, monthKeyPair, exC5,
      List.insertionSort, List.orderedInsert]

/-!
## Shared concrete records for witnesses
-/

def eA : Expense := ⟨"1", 3, "Travel", "ta", ⟨2024, 3, 1⟩⟩

def eB : Expense := ⟨"2", 4, "Shopping", "tb", ⟨2024, 3, 2⟩⟩

def eC : Expense := ⟨"3", 5, "Other", "tc", ⟨2024, 3, 3⟩⟩

/-- A form state passing the required-fields validation. -/
def fOK : FormState :=
  { amount := "6", category := "Business", description := "td", date := ⟨2024, 3, 4⟩ }

/-!
## Claim C6
-/

/-- A state holding one record whose id is the string "5", about to create. -/
def exC6 : CalcState :=
  { expenses := [⟨"5", 1, "Food & Dining", "a", ⟨2024, 1, 5⟩⟩]
    form := { amount := "2", category := "Travel", description := "b", date := ⟨2024, 1, 6⟩ }
    editingId := none }

/-- C6 counterexample: creating when `Date.now()` is 5 ms while a record with id
"5" exists yields ids ["5", "5"]: the code never checks the new identifier
against existing ones, so a create can break uniqueness. -/
theorem C6_counterexample :
    idsNodup exC6.expenses ∧
    ¬idsNodup (handleSubmit 5 ⟨2024, 1, 6⟩ exC6).state.expenses := by
  constructor
  · decide
  · decide

/-- C6 (amended): starting from pairwise-distinct identifiers, delete and
edit-by-identifier preserve distinctness unconditionally, and create preserves it
provided the timestamp string `Date.now().toString()` is not already an existing
identifier — a precondition the code does not enforce. -/
theorem C6_unique_ids_invariant (expenses : List Expense) (f : FormState) (now : Nat)
    (today : Date) (i eid : String) (h : idsNodup expenses)
    (hfresh : toString now ∉ expenses.map Expense.id) :
    idsNodup (handleDelete i expenses) ∧
    idsNodup (handleSubmit now today ⟨expenses, f, some eid⟩).state.expenses ∧
    idsNodup (handleSubmit now today ⟨expenses, f, none⟩).state.expenses := by
  refine ⟨?_, ?_, ?_⟩
  · exact List.Nodup.sublist ((List.filter_sublist expenses).map Expense.id) h
  · by_cases hv : f.amount = "" ∨ f.category = "" ∨ f.description = ""
    · simpa only [handleSubmit, if_pos hv] using h
    · simp only [handleSubmit, if_neg hv]
      unfold idsNodup
      rw [List.map_map]
      have hcongr : ∀ e ∈ expenses,
          (Expense.id ∘ fun exp =>
            if exp.id = eid then mkExpense (some eid) now f else exp) e = Expense.id e := by
        intro e _
        by_cases he : e.id = eid
        · simp [he, mkExpense]
        · simp [he]
      rw [List.map_congr_left hcongr]
      exact h
  · by_cases hv : f.amount = "" ∨ f.category = "" ∨ f.description = ""
    · simpa only [handleSubmit, if_pos hv] using h
    · simp only [handleSubmit, if_neg hv]
      unfold idsNodup
      rw [List.map_append]
      simp only [List.map_cons, List.map_nil]
      rw [List.nodup_append]
      refine ⟨h, List.nodup_singleton _, ?_⟩
      intro a ha hb
      rcases List.mem_singleton.mp hb with rfl
      exact hfresh ha

/-- Witness for C6 at a concrete two-record state with a fresh timestamp. -/
theorem C6_witness :
    idsNodup [eA, eB] ∧ toString 7 ∉ [eA, eB].map Expense.id ∧
    (idsNodup (handleDelete "1" [eA, eB]) ∧
      idsNodup (handleSubmit 7 ⟨2024, 3, 4⟩ ⟨[eA, eB], fOK, some "2"⟩).state.expenses ∧
      idsNodup (handleSubmit 7 ⟨2024, 3, 4⟩ ⟨[eA, eB], fOK, none⟩).state.expenses) :=
  ⟨by decide, by decide,
    C6_unique_ids_invariant [eA, eB] fOK 7 ⟨2024, 3, 4⟩ "1" "2" (by decide) (by decide)⟩

/-!
## Claim C7
-/

/-- C7: with any required field empty, `handleSubmit` of both variants
short-circuits: the validation notification is raised, no remote call is
attempted, and the expense list, form and editing state are left exactly as they
were. -/
theorem C7_validation_short_circuits (env : RemoteEnv) (now : Nat) (today : Date)
    (s : CalcState)
    (h : s.form.amount = "" ∨ s.form.category = "" ∨ s.form.description = "") :
    handleSubmitPersisted env today s =
      { state := s, toast := some ToastKind.validationError, remoteAttempted := false } ∧
    handleSubmit now today s = { state := s, toast := ToastKind.validationError } := by
  constructor
  · simp only [handleSubmitPersisted, if_pos h]
  · simp only [handleSubmit, if_pos h]

/-- A state whose form has an empty amount field. -/
def exC7 : CalcState :=
  { expenses := [eA]
    form := { amount := "", category := "Travel", description := "x", date := ⟨2024, 1, 3⟩ }
    editingId := none }

def exEnv : RemoteEnv := { user := some "u", mutationError := none, reloaded := [] }

/-- Witness for C7 at a concrete state with an empty amount field. -/
theorem C7_witness :
    (exC7.form.amount = "" ∨ exC7.form.category = "" ∨ exC7.form.description = "") ∧
    (handleSubmitPersisted exEnv ⟨2024, 1, 3⟩ exC7 =
        { state := exC7, toast := some ToastKind.validationError, remoteAttempted := false } ∧
      handleSubmit 7 ⟨2024, 1, 3⟩ exC7 = { state := exC7, toast := ToastKind.validationError }) :=
  ⟨Or.inl rfl, C7_validation_short_circuits exEnv 7 ⟨2024, 1, 3⟩ exC7 (Or.inl rfl)⟩

/-!
## Claim C8
-/

/-- C8: with pairwise-distinct identifiers, deleting by the identifier of the
record `e` (present in the list) removes exactly `e` and leaves every other
record unchanged in its original relative order. -/
theorem C8_delete_frame (l1 l2 : List Expense) (e : Expense)
    (h : idsNodup (l1 ++ e :: l2)) :
    handleDelete e.id (l1 ++ e :: l2) = l1 ++ l2 := by
  have h' : ((l1.map Expense.id) ++ e.id :: (l2.map Expense.id)).Nodup := by
    simpa [idsNodup] using h
  rcases List.nodup_append.mp h' with ⟨_, hnd2, hdisj⟩
  have hnotl1 : e.id ∉ l1.map Expense.id := fun hmem =>
    hdisj hmem (List.mem_cons_self _ _)
  have hnotl2 : e.id ∉ l2.map Expense.id := (List.nodup_cons.mp hnd2).1
  unfold handleDelete
  rw [List.filter_append, List.filter_cons_of_neg (by simp)]
  have f1 : l1.filter (fun exp => exp.id != e.id) = l1 :=
    List.filter_eq_self.mpr fun x hx => by
      simp only [bne_iff_ne, ne_eq, decide_eq_true_eq]
      intro hxe
      exact hnotl1 (List.mem_map.mpr ⟨x, hx, hxe⟩)
  have f2 : l2.filter (fun exp => exp.id != e.id) = l2 :=
    List.filter_eq_self.mpr fun x hx => by
      simp only [bne_iff_ne, ne_eq, decide_eq_true_eq]
      intro hxe
      exact hnotl2 (List.mem_map.mpr ⟨x, hx, hxe⟩)
  rw [f1, f2]

/-- Witness for C8: deleting the middle record of a three-record list. -/
theorem C8_witness :
    idsNodup ([eA] ++ eB :: [eC]) ∧
    handleDelete eB.id ([eA] ++ eB :: [eC]) = [eA] ++ [eC] :=
  ⟨by decide, C8_delete_frame [eA] [eC] eB (by decide)⟩

/-!
## Claim C9
-/

/-- C9: with pairwise-distinct identifiers and a valid form, submitting while
editing the record `e` replaces exactly `e` with the expense built from the form
fields, keeps its identifier (`id: editingId`), leaves every other record and the
relative order untouched, and preserves the list length. -/
theorem C9_edit_frame (now : Nat) (today : Date) (f : FormState) (l1 l2 : List Expense)
    (e : Expense)
    (hv : f.amount ≠ "" ∧ f.category ≠ "" ∧ f.description ≠ "")
    (h : idsNodup (l1 ++ e :: l2)) :
    (handleSubmit now today ⟨l1 ++ e :: l2, f, some e.id⟩).state.expenses
        = l1 ++ mkExpense (some e.id) now f :: l2 ∧
    (mkExpense (some e.id) now f).id = e.id ∧
    ((handleSubmit now today ⟨l1 ++ e :: l2, f, some e.id⟩).state.expenses).length
        = (l1 ++ e :: l2).length := by
  have hcond : ¬(f.amount = "" ∨ f.category = "" ∨ f.description = "") := by
    push_neg
    exact hv
  have h' : ((l1.map Expense.id) ++ e.id :: (l2.map Expense.id)).Nodup := by
    simpa [idsNodup] using h
  rcases List.nodup_append.mp h' with ⟨_, hnd2, hdisj⟩
  have hnotl1 : e.id ∉ l1.map Expense.id := fun hmem =>
    hdisj hmem (List.mem_cons_self _ _)
  have hnotl2 : e.id ∉ l2.map Expense.id := (List.nodup_cons.mp hnd2).1
  have hmain : (handleSubmit now today ⟨l1 ++ e :: l2, f, some e.id⟩).state.expenses
      = l1 ++ mkExpense (some e.id) now f :: l2 := by
    simp only [handleSubmit, if_neg hcond]
    rw [List.map_append, List.map_cons, if_pos rfl]
    have m1 : l1.map (fun exp => if exp.id = e.id then mkExpense (some e.id) now f else exp)
        = l1 := by
      rw [List.map_congr_left fun x hx => ?_, List.map_id]
      have hxe : ¬(x.id = e.id) := fun hh => hnotl1 (List.mem_map.mpr ⟨x, hx, hh⟩)
      exact if_neg hxe
    have m2 : l2.map (fun exp => if exp.id = e.id then mkExpense (some e.id) now f else exp)
        = l2 := by
      rw [List.map_congr_left fun x hx => ?_, List.map_id]
      have hxe : ¬(x.id = e.id) := fun hh => hnotl2 (List.mem_map.mpr ⟨x, hx, hh⟩)
      exact if_neg hxe
    rw [m1, m2]
  refine ⟨hmain, rfl, ?_⟩
  rw [hmain]
  simp

/-- Witness for C9: editing the middle record of a three-record list. -/
theorem C9_witness :
    (fOK.amount ≠ "" ∧ fOK.category ≠ "" ∧ fOK.description ≠ "") ∧
    idsNodup ([eA] ++ eB :: [eC]) ∧
    ((handleSubmit 9 ⟨2024, 3, 4⟩ ⟨[eA] ++ eB :: [eC], fOK, some eB.id⟩).state.expenses
        = [eA] ++ mkExpense (some eB.id) 9 fOK :: [eC] ∧
      (mkExpense (some eB.id) 9 fOK).id = eB.id ∧
      ((handleSubmit 9 ⟨2024, 3, 4⟩ ⟨[eA] ++ eB :: [eC], fOK, some eB.id⟩).state.expenses).length
        = ([eA] ++ eB :: [eC]).length) :=
  ⟨by decide, by decide, C9_edit_frame 9 ⟨2024, 3, 4⟩ fOK [eA] [eC] eB (by decide) (by decide)⟩

/-!
## Claim C10
-/

/-- C10: in the local variant, submitting a valid new expense (no edit in
progress) appends exactly one record at the end — existing records and their
order untouched — whose identifier is `Date.now().toString()` (the millisecond
timestamp as a decimal string) and whose amount is `parseFloat(form.amount)`. -/
theorem C10_add_appends (now : Nat) (today : Date) (s : CalcState)
    (hv : s.form.amount ≠ "" ∧ s.form.category ≠ "" ∧ s.form.description ≠ "")
    (hnone : s.editingId = none) :
    (handleSubmit now today s).state.expenses =
      s.expenses ++ [{ id := toString now, amount := parseFloat s.form.amount,
                       category := s.form.category, description := s.form.description,
                       date := s.form.date }] ∧
    (handleSubmit now today s).toast = ToastKind.success := by
  have hcond : ¬(s.form.amount = "" ∨ s.form.category = "" ∨ s.form.description = "") := by
    push_neg
    exact hv
  simp only [handleSubmit, if_neg hcond, hnone]
  constructor <;> trivial

def sC10 : CalcState := { expenses := [eA], form := fOK, editingId := none }

/-- Witness for C10 at a concrete one-record state. -/
theorem C10_witness :
    (sC10.form.amount ≠ "" ∧ sC10.form.category ≠ "" ∧ sC10.form.description ≠ "") ∧
    sC10.editingId = none ∧
    ((handleSubmit 11 ⟨2024, 3, 4⟩ sC10).state.expenses =
        sC10.expenses ++ [{ id := toString 11, amount := parseFloat sC10.form.amount,
                            category := sC10.form.category,
                            description := sC10.form.description,
                            date := sC10.form.date }] ∧
      (handleSubmit 11 ⟨2024, 3, 4⟩ sC10).toast = ToastKind.success) :=
  ⟨by decide, rfl, C10_add_appends 11 ⟨2024, 3, 4⟩ sC10 (by decide) rfl⟩

end ExpenseWeaver
